import Mathlib

/-!
# Verification of the PictureAnnotator annotation session engine

Shallow embedding of `src/picture_annotator/gui/store.py` (clamp algorithm,
session load/repair, save, add_box, delete_box), the corner-handle constraint
of `src/picture_annotator/gui/canvas.py`, and the selection synchronizer of
`src/picture_annotator/gui/main_window.py`.

Python floats are modelled as rationals (`ℚ`): the algorithms use only
`max`/`min`, comparisons and `±1`, which are exact. Python dicts are
modelled as association lists with unique keys (insertion order preserved,
as in Python); JSON values as the inductive `Json`, keeping Python's
distinction between ints and floats and Python's rule that `bool` is a
subtype of `int`.
-/

namespace PictureAnnotator

/-- JSON values as produced by `json.loads`. `intVal`/`floatVal` mirror
Python's `int`/`float`; `bool` is separate but, as in Python, counts as an
`int` for `isinstance` checks. -/
inductive Json where
  | null : Json
  | bool (b : Bool) : Json
  | intVal (n : Int) : Json
  | floatVal (q : ℚ) : Json
  | str (s : String) : Json
  | arr (xs : List Json) : Json
  | obj (kvs : List (String × Json)) : Json

/-- Python `isinstance(x, int)` together with `int(x)`: true for `int` and
`bool` (where `True == 1`, `False == 0`). -/
def Json.asInt? : Json → Option Int
  | .intVal n => some n
  | .bool b => some (if b then 1 else 0)
  | _ => none

/-- Python `isinstance(x, (int, float))` together with `float(x)`. -/
def Json.asNum? : Json → Option ℚ
  | .intVal n => some (n : ℚ)
  | .floatVal q => some q
  | .bool b => some (if b then 1 else 0)
  | _ => none

/-- Python `d.get(k)` on a dict modelled as an association list. -/
def dictGet? (kvs : List (String × Json)) (k : String) : Option Json :=
  (kvs.find? (fun p => p.1 == k)).map (fun p => p.2)

/-- Python `d[k] = v`: replace the value at an existing key in place
(keeping its position), else append the new key at the end. -/
def dictSet (kvs : List (String × Json)) (k : String) (v : Json) :
    List (String × Json) :=
  if kvs.any (fun p => p.1 == k) then
    kvs.map (fun p => if p.1 == k then (p.1, v) else p)
  else kvs ++ [(k, v)]

/-- Python's builtin `max(a, b)`: `a` when `a >= b`, else `b`. -/
def pyMax (a b : ℚ) : ℚ :=
  if b ≤ a then a else b

/-- Python's builtin `min(a, b)`: `a` when `a <= b`, else `b`. -/
def pyMin (a b : ℚ) : ℚ :=
  if a ≤ b then a else b

/-- `_clamp(value, low, high)` from `store.py` line 14. -/
def pyClamp (value low high : ℚ) : ℚ :=
  pyMax low (pyMin value high)

/-- A bbox `(xmin, ymin, xmax, ymax)` in pixel coordinates. -/
structure BBoxQ where
  xmin : ℚ
  ymin : ℚ
  xmax : ℚ
  ymax : ℚ
deriving DecidableEq, Repr

/-- One axis of `AnnotationStore._clamp_bbox`: clamp the min coordinate to
`[0, max(bound-1, 0)]`, the max coordinate to `[min(1, bound), bound]`, then
enforce the minimum size of 1 (max first, then min, as in the source). -/
def clampAxis (vmin vmax bound : ℚ) : ℚ × ℚ :=
  let a := pyClamp vmin 0 (pyMax (bound - 1) 0)
  let b := pyClamp vmax (pyMin 1 bound) bound
  let b2 := if b - a < 1 then pyMin bound (a + 1) else b
  let a2 := if b - a < 1 then pyMax 0 (b2 - 1) else a
  (a2, b2)

/-- `AnnotationStore._clamp_bbox` from `store.py` lines 176-196; the x and y
axes are processed independently by the same steps. -/
def clampBBox (bbox : BBoxQ) (width height : ℕ) : BBoxQ :=
  let px := clampAxis bbox.xmin bbox.xmax (width : ℚ)
  let py := clampAxis bbox.ymin bbox.ymax (height : ℚ)
  ⟨px.1, py.1, px.2, py.2⟩

/-- The bbox list written back by the store: a list of four floats. -/
def bboxJson (b : BBoxQ) : Json :=
  .arr [.floatVal b.xmin, .floatVal b.ymin, .floatVal b.xmax, .floatVal b.ymax]

/-- The validation of `store.py` line 100 followed by the conversion of line
106: the value must be a list of exactly four numbers. -/
def bboxNums? : Option Json → Option BBoxQ
  | some (.arr [a, b, c, d]) =>
    match a.asNum?, b.asNum?, c.asNum?, d.asNum? with
    | some x1, some y1, some x2, some y2 => some ⟨x1, y1, x2, y2⟩
    | _, _, _, _ => none
  | _ => none

/-- The data-integrity invariant of spec section 3 for one bbox:
in bounds with minimum size 1. -/
def InBounds (width height : ℕ) (b : BBoxQ) : Prop :=
  0 ≤ b.xmin ∧ 0 ≤ b.ymin ∧ b.xmax ≤ (width : ℚ) ∧ b.ymax ≤ (height : ℚ) ∧
    b.xmin + 1 ≤ b.xmax ∧ b.ymin + 1 ≤ b.ymax

instance (width height : ℕ) (b : BBoxQ) : Decidable (InBounds width height b) := by
  unfold InBounds; infer_instance

/-- A detection, as stored in a session, whose `bbox` entry is a well-formed
four-number list satisfying the bounds invariant. -/
def detInBounds (width height : ℕ) (d : Json) : Bool :=
  match d with
  | .obj kvs =>
    match bboxNums? (dictGet? kvs "bbox") with
    | some b => decide (InBounds width height b)
    | none => false
  | _ => false

/-- A detection entry satisfying every invariant of spec section 3: a dict
with an integer `id`, a numeric `score`, and a four-number `bbox` that is in
bounds with minimum size 1. Records made of such entries load without drops
or clamping. -/
def detValid (width height : ℕ) (d : Json) : Bool :=
  match d with
  | .obj kvs =>
    ((dictGet? kvs "id").bind Json.asInt?).isSome &&
      ((dictGet? kvs "score").bind Json.asNum?).isSome &&
      (match bboxNums? (dictGet? kvs "bbox") with
       | some b => decide (InBounds width height b)
       | none => false)
  | _ => false

/-- `LoadReport` from `store.py` (the fields settled by the parsed-record
path; `created_new_json` and `json_parse_failed` concern the file system and
are false on this path). -/
structure LoadReport where
  droppedInvalid : List Int
  clampedCount : ℕ
deriving DecidableEq, Repr

/-- `AnnotationSession` from `store.py` (the `entry` path field is owned by
the file system and not modelled). -/
structure Session where
  width : ℕ
  height : ℕ
  payload : List (String × Json)
  detections : List Json
  nextId : Int
  dirty : Bool

/-- Outcome of the per-entry validation of `store.py` lines 92-115. -/
inductive DetOutcome where
  | skipped : DetOutcome
  | dropped (id : Int) : DetOutcome
  | kept (det : Json) (wasClamped : Bool) : DetOutcome

/-- One iteration of the load loop, `store.py` lines 92-115: skip non-dict
entries and entries without an integer `id`; drop (recording the id) entries
with a malformed `bbox`, a non-numeric `score`, or a degenerate rectangle;
clamp the survivors, rewriting `bbox` when clamping changed it. -/
def processDet (width height : ℕ) (j : Json) : DetOutcome :=
  match j with
  | .obj kvs =>
    match (dictGet? kvs "id").bind Json.asInt? with
    | none => .skipped
    | some detId =>
      match bboxNums? (dictGet? kvs "bbox") with
      | none => .dropped detId
      | some b =>
        match (dictGet? kvs "score").bind Json.asNum? with
        | none => .dropped detId
        | some _ =>
          if b.xmax ≤ b.xmin ∨ b.ymax ≤ b.ymin then .dropped detId
          else
            let c := clampBBox b width height
            if c = b then .kept j false
            else .kept (.obj (dictSet kvs "bbox" (bboxJson c))) true
  | _ => .skipped

/-- Accumulated effect of the load loop: `rawAfter` is the raw detections
list after the in-place `det["bbox"] = ...` mutations (visible through the
payload, which aliases the same dicts), `kept` the surviving detections. -/
structure LoadOut where
  rawAfter : List Json
  kept : List Json
  dropped : List Int
  clamped : ℕ

def processDets (width height : ℕ) : List Json → LoadOut
  | [] => ⟨[], [], [], 0⟩
  | j :: rest =>
    let r := processDets width height rest
    match processDet width height j with
    | .skipped => ⟨j :: r.rawAfter, r.kept, r.dropped, r.clamped⟩
    | .dropped i => ⟨j :: r.rawAfter, r.kept, i :: r.dropped, r.clamped⟩
    | .kept j2 c =>
      ⟨j2 :: r.rawAfter, j2 :: r.kept, r.dropped, r.clamped + if c then 1 else 0⟩

/-- Python's builtin `max(a, b)` on integers. -/
def pyIntMax (a b : Int) : Int :=
  if b ≤ a then a else b

/-- `max((d.get("id", -1) for d in detections if isinstance(d.get("id"), int)), default=-1)`
from `store.py` line 120. -/
def maxIdOf (dets : List Json) : Int :=
  (dets.filterMap (fun d =>
    match d with
    | .obj kvs => (dictGet? kvs "id").bind Json.asInt?
    | _ => none)).foldr pyIntMax (-1)

/-- `AnnotationStore.load`, `store.py` lines 87-131, on a successfully
parsed payload for an image of size `width × height`: validate, repair and
clamp the detections, reassign `payload["detections"]` when entries were
dropped, seed `next_id`, and set `dirty` when any repair happened. -/
def loadRecord (width height : ℕ) (payload : List (String × Json)) :
    Session × LoadReport :=
  let isList := match dictGet? payload "detections" with
    | some (.arr _) => true
    | _ => false
  let detectionsRaw := match dictGet? payload "detections" with
    | some (.arr xs) => xs
    | _ => []
  let out := processDets width height detectionsRaw
  let payload1 := if isList then dictSet payload "detections" (.arr out.rawAfter)
    else payload
  let payload2 := if out.dropped.isEmpty then payload1
    else dictSet payload1 "detections" (.arr out.kept)
  (⟨width, height, payload2, out.kept, maxIdOf out.kept + 1,
    !out.dropped.isEmpty || out.clamped != 0⟩,
   ⟨out.dropped, out.clamped⟩)

/-- The per-detection re-validation of `AnnotationStore.save`, `store.py`
lines 134-141: a detection whose `bbox` is a well-formed four-number list is
re-clamped (the entry is rewritten only if clamping changed it); any other
detection is left untouched (`continue`). The non-dict fallback is
unreachable for sessions produced by the store, whose detections are always
dicts. -/
def saveDet (width height : ℕ) (j : Json) : Json :=
  match j with
  | .obj kvs =>
    match bboxNums? (dictGet? kvs "bbox") with
    | none => j
    | some b =>
      let c := clampBBox b width height
      if c = b then j else .obj (dictSet kvs "bbox" (bboxJson c))
  | _ => j

/-- `AnnotationStore.save`, `store.py` lines 133-147, up to the file write:
re-clamp every detection, rebind `payload["detections"]` to the session's
detections list, clear `dirty`. The payload of the result is the record
persisted to disk. -/
def saveRecord (s : Session) : Session :=
  let dets := s.detections.map (saveDet s.width s.height)
  { s with detections := dets,
           payload := dictSet s.payload "detections" (.arr dets),
           dirty := false }

/-- `AnnotationStore.add_box`, `store.py` lines 149-155. -/
def addBox (s : Session) (bbox : BBoxQ) : Session × Json :=
  let c := clampBBox bbox s.width s.height
  let det : Json := .obj
    [("id", .intVal s.nextId), ("bbox", bboxJson c), ("score", .floatVal 1)]
  ({ s with nextId := s.nextId + 1,
            detections := s.detections ++ [det],
            dirty := true }, det)

mutual

/-- Python `==` on JSON values: numbers (including `bool`) compare by value
(`1 == 1.0 == True`), lists elementwise, dicts by key set and per-key value.
This is the equality used by `list.remove` in `delete_box`. -/
def pyEq : Json → Json → Bool
  | .null, .null => true
  | .str a, .str b => a == b
  | .arr a, .arr b => pyEqList a b
  | .obj a, .obj b => a.length == b.length && pyEqObjSub a b
  | a, b =>
    match a.asNum?, b.asNum? with
    | some x, some y => x == y
    | _, _ => false

def pyEqList : List Json → List Json → Bool
  | [], [] => true
  | x :: xs, y :: ys => pyEq x y && pyEqList xs ys
  | _, _ => false

/-- Every key of the first dict is present in the second with a
`pyEq`-equal value. -/
def pyEqObjSub : List (String × Json) → List (String × Json) → Bool
  | [], _ => true
  | (k, v) :: rest, b =>
    (match dictGet? b k with
     | some w => pyEq v w
     | none => false) && pyEqObjSub rest b

end

/-- Python `list.remove(x)` wrapped in `try/except ValueError`: `some l` with
the first `==`-equal element removed, or `none` when no element matches. -/
def removeFirst (x : Json) : List Json → Option (List Json)
  | [] => none
  | y :: ys =>
    if pyEq y x then some ys
    else (removeFirst x ys).map (fun l => y :: l)

/-- `AnnotationStore.delete_box`, `store.py` lines 157-162: remove the first
`==`-equal occurrence and set `dirty`; when `list.remove` raises
`ValueError` (no occurrence), return with the session untouched. -/
def deleteBox (s : Session) (det : Json) : Session :=
  match removeFirst det s.detections with
  | some dets => { s with detections := dets, dirty := true }
  | none => s

/-- A point in scene coordinates. -/
structure PointQ where
  x : ℚ
  y : ℚ
deriving DecidableEq, Repr

/-- The two corner handles of a `BBoxItem`. -/
inductive Corner where
  | tl : Corner
  | br : Corner
deriving DecidableEq

/-- `BBoxItem.constrain_handle`, `canvas.py` lines 134-146: the live
position of a dragged corner, given the current positions `tl` and `br` of
the two handles, the image size, and the minimum size (`BBoxItem.min_size`,
always `1.0`). -/
def constrainHandle (tl br : PointQ) (w h minSize : ℚ) (corner : Corner)
    (pos : PointQ) : PointQ :=
  match corner with
  | .tl => ⟨pyClamp pos.x 0 (br.x - minSize), pyClamp pos.y 0 (br.y - minSize)⟩
  | .br => ⟨pyClamp pos.x (tl.x + minSize) w, pyClamp pos.y (tl.y + minSize) h⟩

/-! ## Selection synchronizer

Abstract state of `MainWindow`'s two selection views, `main_window.py`
lines 291-316 and `ImageCanvas.select_detection`, `canvas.py` lines 228-243.
Detections are abstracted to their integer ids (unique within a session);
`boxes` is the key set of the canvas's `_det_to_item` map, `listIds` the ids
shown by the boxes list model. `guard` is `MainWindow._sync_selection`;
`handlerRuns` counts how many times a guarded handler body ran past its
guard, so "no second synchronization round" is observable. -/

structure SyncState where
  listSel : Option Int
  canvasSel : Option Int
  guard : Bool
  handlerRuns : ℕ
deriving DecidableEq, Repr

/-- The two selection-change events: the boxes list view's `currentChanged`
(handled by `MainWindow._on_box_selected_in_list`) and the canvas's
`boxSelectionChanged` (handled by `MainWindow._on_canvas_selection_changed`). -/
inductive UiEvent where
  | listCurrentChanged (det : Option Int) : UiEvent
  | canvasSelectionChanged (det : Option Int) : UiEvent

/-- Event dispatch for the two guarded handlers. Each handler returns
immediately when the guard is set; otherwise it sets the guard, pushes the
selection into the other view (which may re-fire that view's own handler,
dispatched here with the guard still set), and finally clears the guard.
`fuel` bounds the re-entrancy depth; depth 2 suffices because nested
dispatches hit the guard. -/
def dispatch (boxes listIds : List Int) : ℕ → UiEvent → SyncState → SyncState
  | 0, _, st => st
  | fuel + 1, .listCurrentChanged det, st =>
    if st.guard then st
    else
      let cSel : Option Int := match det with
        | none => none
        | some i => if i ∈ boxes then some i else none
      let st1 := dispatch boxes listIds fuel (.canvasSelectionChanged cSel)
        { st with guard := true, canvasSel := cSel,
                  handlerRuns := st.handlerRuns + 1 }
      { st1 with guard := false }
  | fuel + 1, .canvasSelectionChanged det, st =>
    if st.guard then st
    else
      let lSel : Option Int := match det with
        | none => none
        | some i => if i ∈ listIds then some i else none
      let st1 := dispatch boxes listIds fuel (.listCurrentChanged lSel)
        { st with guard := true, listSel := lSel,
                  handlerRuns := st.handlerRuns + 1 }
      { st1 with guard := false }

/-- `ImageCanvas.select_detection`, `canvas.py` lines 228-243: with scene
signals blocked, clear the selection and select the item keyed by the
detection's id when present; then invoke `_on_scene_selection_changed`
once, which emits `boxSelectionChanged` with the resulting selection. -/
def selectDetection (boxes listIds : List Int) (fuel : ℕ) (det : Option Int)
    (st : SyncState) : SyncState :=
  let cSel : Option Int := match det with
    | none => none
    | some i => if i ∈ boxes then some i else none
  dispatch boxes listIds fuel (.canvasSelectionChanged cSel)
    { st with canvasSel := cSel }

/-! ## Concrete records used by the spec's examples -/

/-- The degenerate detection `{id: 3, bbox: [10,10,10,20], score: 0.5}`
from spec section 8. -/
def detDegenerate : Json :=
  .obj [("id", .intVal 3),
    ("bbox", .arr [.intVal 10, .intVal 10, .intVal 10, .intVal 20]),
    ("score", .floatVal (1/2))]

def recDegenerate : List (String × Json) :=
  [("detections", .arr [detDegenerate])]

/-- The out-of-bounds detection `{id: 4, bbox: [-5,-5,50,50], score: 0.9}`
from spec section 8. -/
def detOutOfBounds : Json :=
  .obj [("id", .intVal 4),
    ("bbox", .arr [.intVal (-5), .intVal (-5), .intVal 50, .intVal 50]),
    ("score", .floatVal (9/10))]

def recOutOfBounds : List (String × Json) :=
  [("detections", .arr [detOutOfBounds])]

/-- `detOutOfBounds` after its bbox is clamped against a `40×40` image. -/
def detOutOfBoundsClamped : Json :=
  .obj [("id", .intVal 4),
    ("bbox", .arr [.floatVal 0, .floatVal 0, .floatVal 40, .floatVal 40]),
    ("score", .floatVal (9/10))]

/-- A well-formed in-bounds detection on a `10×10` image. -/
def detSmall : Json :=
  .obj [("id", .intVal 0),
    ("bbox", .arr [.intVal 2, .intVal 3, .intVal 7, .intVal 9]),
    ("score", .floatVal 1)]

/-- A record holding `detSmall` plus an unknown passthrough key. -/
def recSmall : List (String × Json) :=
  [("format_version", .str "1.0"),
   ("custom_field", .intVal 7),
   ("detections", .arr [detSmall])]

/-- A session over `recSmall`, as produced by loading it. -/
def sessionSmall : Session :=
  ⟨10, 10, recSmall, [detSmall], 1, false⟩

/-- A detection whose bbox was mutated out of band into a non-list value. -/
def detBadBBox : Json :=
  .obj [("id", .intVal 0), ("bbox", .str "junk"), ("score", .floatVal 1)]

/-- A session on a `100×100` image whose only detection carries the
malformed bbox of `detBadBBox`. -/
def sessionBadBBox : Session :=
  ⟨100, 100, [("detections", .arr [])], [detBadBBox], 1, true⟩

/-! ## Basic lemmas -/

theorem pyMax_eq_max (a b : ℚ) : pyMax a b = max a b := by
  unfold pyMax
  rcases le_total a b with h | h
  · rcases eq_or_lt_of_le h with rfl | hlt
    · simp
    · rw [if_neg (not_le.mpr hlt), max_eq_right h]
  · rw [if_pos h, max_eq_left h]

theorem pyMin_eq_min (a b : ℚ) : pyMin a b = min a b := by
  unfold pyMin
  rcases le_total a b with h | h
  · rw [if_pos h, min_eq_left h]
  · rcases eq_or_lt_of_le h with rfl | hlt
    · simp
    · rw [if_neg (not_le.mpr hlt), min_eq_right h]

theorem pyClamp_eq (value low high : ℚ) :
    pyClamp value low high = max low (min value high) := by
  rw [pyClamp, pyMax_eq_max, pyMin_eq_min]

/-- `_clamp` lands in `[low, high]` whenever `low ≤ high`. -/
theorem pyClamp_mem (value low high : ℚ) (h : low ≤ high) :
    low ≤ pyClamp value low high ∧ pyClamp value low high ≤ high := by
  rw [pyClamp_eq]
  exact ⟨le_max_left _ _, max_le h (min_le_right _ _)⟩

/-- `_clamp` fixes any value already in `[low, high]`. -/
theorem pyClamp_of_mem (value low high : ℚ) (h1 : low ≤ value)
    (h2 : value ≤ high) : pyClamp value low high = value := by
  rw [pyClamp_eq, min_eq_left h2, max_eq_right h1]

/-! ## Geometry: soundness, fixed points and idempotence of the clamp -/

/-- One axis of the clamp algorithm always produces
`0 ≤ lo`, `lo + 1 ≤ hi` and `hi ≤ bound`, for any input and any
`bound ≥ 1`. -/
theorem clampAxis_sound (vmin vmax bound : ℚ) (hb : 1 ≤ bound) :
    0 ≤ (clampAxis vmin vmax bound).1 ∧
      (clampAxis vmin vmax bound).1 + 1 ≤ (clampAxis vmin vmax bound).2 ∧
      (clampAxis vmin vmax bound).2 ≤ bound := by
  have h0 : (0 : ℚ) ≤ bound - 1 := by linarith
  unfold clampAxis
  simp only [pyMax_eq_max, pyMin_eq_min, pyClamp_eq]
  rw [max_eq_left h0, min_eq_left hb]
  set a := max 0 (min vmin (bound - 1)) with ha
  set b := max 1 (min vmax bound) with hbdef
  have ha0 : 0 ≤ a := le_max_left _ _
  have hab : a ≤ bound - 1 := max_le h0 (min_le_right _ _)
  have hb1 : (1 : ℚ) ≤ b := le_max_left _ _
  have hbb : b ≤ bound := max_le hb (min_le_right _ _)
  by_cases hlt : b - a < 1
  · simp only [if_pos hlt]
    have h1 : min bound (a + 1) = a + 1 := min_eq_right (by linarith)
    rw [h1]
    have h2 : max 0 (a + 1 - 1) = a := by
      rw [show a + 1 - 1 = a by ring]
      exact max_eq_right ha0
    rw [h2]
    exact ⟨ha0, le_refl _, by linarith⟩
  · simp only [if_neg hlt]
    exact ⟨ha0, by linarith [not_lt.mp hlt], hbb⟩

/-- One axis of the clamp algorithm fixes any pair already satisfying the
invariant. -/
theorem clampAxis_fixed (vmin vmax bound : ℚ) (hb : 1 ≤ bound)
    (h1 : 0 ≤ vmin) (h2 : vmin + 1 ≤ vmax) (h3 : vmax ≤ bound) :
    clampAxis vmin vmax bound = (vmin, vmax) := by
  have h0 : (0 : ℚ) ≤ bound - 1 := by linarith
  unfold clampAxis
  simp only [pyMax_eq_max, pyMin_eq_min, pyClamp_eq]
  rw [max_eq_left h0, min_eq_left hb]
  have hva : min vmin (bound - 1) = vmin := min_eq_left (by linarith)
  have hvb : min vmax bound = vmax := min_eq_left h3
  rw [hva, hvb, max_eq_right h1, max_eq_right (by linarith : (1:ℚ) ≤ vmax)]
  simp only [if_neg (by linarith : ¬ vmax - vmin < 1)]

/-- The full clamp always lands in bounds with minimum size 1 when the
image has positive size. -/
theorem clampBBox_sound (b : BBoxQ) (width height : ℕ)
    (hw : 1 ≤ width) (hh : 1 ≤ height) :
    InBounds width height (clampBBox b width height) := by
  have hwq : (1 : ℚ) ≤ (width : ℚ) := by exact_mod_cast hw
  have hhq : (1 : ℚ) ≤ (height : ℚ) := by exact_mod_cast hh
  obtain ⟨hx0, hx1, hx2⟩ := clampAxis_sound b.xmin b.xmax (width : ℚ) hwq
  obtain ⟨hy0, hy1, hy2⟩ := clampAxis_sound b.ymin b.ymax (height : ℚ) hhq
  exact ⟨hx0, hy0, hx2, hy2, hx1, hy1⟩

/-- The full clamp fixes any bbox already satisfying the invariant. -/
theorem clampBBox_fixed (b : BBoxQ) (width height : ℕ)
    (hw : 1 ≤ width) (hh : 1 ≤ height) (hb : InBounds width height b) :
    clampBBox b width height = b := by
  have hwq : (1 : ℚ) ≤ (width : ℚ) := by exact_mod_cast hw
  have hhq : (1 : ℚ) ≤ (height : ℚ) := by exact_mod_cast hh
  obtain ⟨h1, h2, h3, h4, h5, h6⟩ := hb
  unfold clampBBox
  rw [clampAxis_fixed b.xmin b.xmax _ hwq h1 h5 h3,
    clampAxis_fixed b.ymin b.ymax _ hhq h2 h6 h4]

/-! ## Claim C10: totality of the clamp -/

/-- C10: the clamp function is total over arbitrary input: for every
rectangle, including an inverted one with `xmin > xmax` or `ymin > ymax`,
and every `width ≥ 1` and `height ≥ 1`, `_clamp_bbox` returns a rectangle
satisfying `0 ≤ xmin`, `0 ≤ ymin`, `xmax ≤ width`, `ymax ≤ height`,
`xmax − xmin ≥ 1` and `ymax − ymin ≥ 1`. -/
theorem clamp_total_inBounds (b : BBoxQ) (width height : ℕ)
    (hw : 1 ≤ width) (hh : 1 ≤ height) :
    InBounds width height (clampBBox b width height) :=
  clampBBox_sound b width height hw hh

theorem clamp_total_inBounds_witness :
    1 ≤ 100 ∧ InBounds 100 100 (clampBBox ⟨7, 9, 3, 2⟩ 100 100) :=
  ⟨by decide, clamp_total_inBounds ⟨7, 9, 3, 2⟩ 100 100 (by decide) (by decide)⟩

/-! ## Claim C3: idempotence of the clamp -/

/-- C3: the shared clamp algorithm is idempotent: for every rectangle and
every positive width and height, applying `_clamp_bbox` twice yields the
same result as applying it once. -/
theorem clamp_idempotent (b : BBoxQ) (width height : ℕ)
    (hw : 1 ≤ width) (hh : 1 ≤ height) :
    clampBBox (clampBBox b width height) width height =
      clampBBox b width height :=
  clampBBox_fixed _ width height hw hh (clampBBox_sound b width height hw hh)

theorem clamp_idempotent_witness :
    1 ≤ 100 ∧
      clampBBox (clampBBox ⟨-10, -10, 5, 5⟩ 100 100) 100 100 =
        clampBBox ⟨-10, -10, 5, 5⟩ 100 100 :=
  ⟨by decide, clamp_idempotent ⟨-10, -10, 5, 5⟩ 100 100 (by decide) (by decide)⟩

/-! ## Claim C8: corner handles never cross during a drag -/

/-- C8: during an interactive corner drag with `min_size = 1`, given handle
positions satisfying the box invariant (`0 ≤ tl`, `tl + 1 ≤ br`,
`br ≤ image bounds`), every constrained position of the top-left handle
satisfies `0 ≤ x ≤ br.x − 1` and `0 ≤ y ≤ br.y − 1`, and every constrained
position of the bottom-right handle satisfies `tl.x + 1 ≤ x ≤ image_width`
and `tl.y + 1 ≤ y ≤ image_height`, so the two corners never cross. -/
theorem constrain_handle_no_cross (tl br : PointQ) (w h : ℚ)
    (htx : 0 ≤ tl.x) (hty : 0 ≤ tl.y)
    (hbx : tl.x + 1 ≤ br.x) (hby : tl.y + 1 ≤ br.y)
    (hwx : br.x ≤ w) (hhy : br.y ≤ h) :
    ∀ pos : PointQ,
      (0 ≤ (constrainHandle tl br w h 1 .tl pos).x ∧
        (constrainHandle tl br w h 1 .tl pos).x ≤ br.x - 1 ∧
        0 ≤ (constrainHandle tl br w h 1 .tl pos).y ∧
        (constrainHandle tl br w h 1 .tl pos).y ≤ br.y - 1) ∧
      (tl.x + 1 ≤ (constrainHandle tl br w h 1 .br pos).x ∧
        (constrainHandle tl br w h 1 .br pos).x ≤ w ∧
        tl.y + 1 ≤ (constrainHandle tl br w h 1 .br pos).y ∧
        (constrainHandle tl br w h 1 .br pos).y ≤ h) := by
  intro pos
  obtain ⟨htl1x, htl2x⟩ := pyClamp_mem pos.x 0 (br.x - 1) (by linarith)
  obtain ⟨htl1y, htl2y⟩ := pyClamp_mem pos.y 0 (br.y - 1) (by linarith)
  obtain ⟨hbr1x, hbr2x⟩ := pyClamp_mem pos.x (tl.x + 1) w (by linarith)
  obtain ⟨hbr1y, hbr2y⟩ := pyClamp_mem pos.y (tl.y + 1) h (by linarith)
  exact ⟨⟨htl1x, htl2x, htl1y, htl2y⟩, ⟨hbr1x, hbr2x, hbr1y, hbr2y⟩⟩

theorem constrain_handle_no_cross_witness :
    (0 ≤ (2:ℚ)) ∧ (2:ℚ) + 1 ≤ 10 ∧ (10:ℚ) ≤ 20 ∧
      ((0 ≤ (constrainHandle ⟨2, 3⟩ ⟨10, 12⟩ 20 20 1 .tl ⟨-100, 100⟩).x ∧
        (constrainHandle ⟨2, 3⟩ ⟨10, 12⟩ 20 20 1 .tl ⟨-100, 100⟩).x ≤ 10 - 1 ∧
        0 ≤ (constrainHandle ⟨2, 3⟩ ⟨10, 12⟩ 20 20 1 .tl ⟨-100, 100⟩).y ∧
        (constrainHandle ⟨2, 3⟩ ⟨10, 12⟩ 20 20 1 .tl ⟨-100, 100⟩).y ≤ 12 - 1) ∧
      ((2:ℚ) + 1 ≤ (constrainHandle ⟨2, 3⟩ ⟨10, 12⟩ 20 20 1 .br ⟨-100, 100⟩).x ∧
        (constrainHandle ⟨2, 3⟩ ⟨10, 12⟩ 20 20 1 .br ⟨-100, 100⟩).x ≤ 20 ∧
        (3:ℚ) + 1 ≤ (constrainHandle ⟨2, 3⟩ ⟨10, 12⟩ 20 20 1 .br ⟨-100, 100⟩).y ∧
        (constrainHandle ⟨2, 3⟩ ⟨10, 12⟩ 20 20 1 .br ⟨-100, 100⟩).y ≤ 20)) :=
  ⟨by norm_num, by norm_num, by norm_num,
    constrain_handle_no_cross ⟨2, 3⟩ ⟨10, 12⟩ 20 20 (by norm_num) (by norm_num)
      (by norm_num) (by norm_num) (by norm_num) (by norm_num) ⟨-100, 100⟩⟩

/-! ## Dictionary lemmas -/

theorem dictGet?_map_set (kvs : List (String × Json)) (k : String) (v : Json)
    (h : kvs.any (fun p => p.1 == k) = true) :
    dictGet? (kvs.map (fun p => if p.1 == k then (p.1, v) else p)) k = some v := by
  induction kvs with
  | nil => simp at h
  | cons p rest ih =>
    by_cases hp : p.1 == k
    · simp [dictGet?, List.find?, hp]
    · have hp2 : (p.1 == k) = false := by simpa using hp
      have h2 : rest.any (fun p => p.1 == k) = true := by
        simpa [List.any_cons, hp2] using h
      simpa [dictGet?, List.find?, hp2] using ih h2

theorem dictGet?_append_absent (kvs : List (String × Json)) (k : String)
    (v : Json) (h : kvs.any (fun p => p.1 == k) = false) :
    dictGet? (kvs ++ [(k, v)]) k = some v := by
  induction kvs with
  | nil => simp [dictGet?, List.find?]
  | cons p rest ih =>
    simp only [List.any_cons, Bool.or_eq_false_iff] at h
    simp only [List.cons_append, dictGet?, List.find?, h.1]
    exact ih h.2

/-- `d[k] = v` makes `d.get(k)` return `v`. -/
theorem dictGet?_dictSet_self (kvs : List (String × Json)) (k : String)
    (v : Json) : dictGet? (dictSet kvs k v) k = some v := by
  unfold dictSet
  by_cases h : kvs.any (fun p => p.1 == k)
  · rw [if_pos h]
    exact dictGet?_map_set kvs k v h
  · rw [if_neg h]
    exact dictGet?_append_absent kvs k v (Bool.not_eq_true _ ▸ eq_false_of_ne_true h)

/-- With unique keys, the entry found for `k` is the only entry keyed `k`. -/
theorem find?_of_mem_nodup (kvs : List (String × Json))
    (hnd : (kvs.map Prod.fst).Nodup) (k : String) (p : String × Json)
    (hp : p ∈ kvs) (hk : p.1 = k) :
    kvs.find? (fun q => q.1 == k) = some p := by
  induction kvs with
  | nil => simp at hp
  | cons q rest ih =>
    simp only [List.map_cons, List.nodup_cons] at hnd
    rcases List.mem_cons.mp hp with rfl | hmem
    · simp [List.find?, hk]
    · have hqk : (q.1 == k) = false := by
        rw [beq_eq_false_iff_ne]
        intro hqe
        exact hnd.1 (hqe ▸ hk ▸ List.mem_map_of_mem Prod.fst hmem)
      simp only [List.find?, hqk]
      exact ih hnd.2 hmem

/-- Re-assigning a key to the value it already has is a no-op
(Python dict semantics, keys unique). -/
theorem dictSet_eq_self (kvs : List (String × Json)) (k : String) (v : Json)
    (hnd : (kvs.map Prod.fst).Nodup) (hget : dictGet? kvs k = some v) :
    dictSet kvs k v = kvs := by
  unfold dictGet? at hget
  obtain ⟨p, hfind, hpv⟩ : ∃ p, kvs.find? (fun q => q.1 == k) = some p ∧ p.2 = v := by
    cases hf : kvs.find? (fun q => q.1 == k) with
    | none => rw [hf] at hget; simp at hget
    | some p =>
      rw [hf] at hget
      exact ⟨p, rfl, by simpa using hget⟩
  have hpmem : p ∈ kvs := List.mem_of_find?_eq_some hfind
  have hpk : (p.1 == k) = true :=
    @List.find?_some (String × Json) (fun q => q.1 == k) p kvs hfind
  have hany : kvs.any (fun q => q.1 == k) = true :=
    List.any_eq_true.mpr ⟨p, hpmem, hpk⟩
  unfold dictSet
  rw [if_pos hany]
  have hmap : ∀ q ∈ kvs, (if q.1 == k then (q.1, v) else q) = q := by
    intro q hq
    by_cases hqk : q.1 == k
    · have : kvs.find? (fun r => r.1 == k) = some q :=
        find?_of_mem_nodup kvs hnd k q hq (by simpa using hqk)
      rw [hfind] at this
      obtain rfl : p = q := by injection this
      rw [if_pos hqk, ← hpv]
    · rw [if_neg hqk]
  calc kvs.map (fun q => if q.1 == k then (q.1, v) else q)
      = kvs.map id := List.map_congr_left hmap
    _ = kvs := List.map_id kvs

/-! ## Load loop lemmas -/

theorem bboxNums?_bboxJson (c : BBoxQ) : bboxNums? (some (bboxJson c)) = some c := rfl

/-- Any detection kept by the load loop satisfies the bounds invariant. -/
theorem processDet_kept_inBounds (width height : ℕ) (hw : 1 ≤ width)
    (hh : 1 ≤ height) {j j2 : Json} {c : Bool}
    (h : processDet width height j = .kept j2 c) :
    detInBounds width height j2 = true := by
  unfold processDet at h
  split at h
  rotate_left
  · cases h
  split at h
  · cases h
  rename_i d kvs xid did hid
  split at h
  · cases h
  rename_i xbb b hbb
  split at h
  · cases h
  rename_i xsc sc hsc
  split at h
  · cases h
  rename_i hdeg
  simp only at h
  split at h
  · rename_i hcl
    injection h with h1 h2
    subst h1
    simp only [detInBounds, hbb]
    have hib : InBounds width height b :=
      hcl ▸ clampBBox_sound b width height hw hh
    simp [hib]
  · rename_i hcl
    injection h with h1 h2
    subst h1
    simp only [detInBounds, dictGet?_dictSet_self, bboxNums?_bboxJson]
    simp [clampBBox_sound b width height hw hh]

/-- Forward evaluation of one load-loop iteration: a valid in-bounds entry
is kept unchanged. -/
theorem processDet_kept_of (width height : ℕ) (kvs : List (String × Json))
    (did : Int) (b : BBoxQ) (sc : ℚ)
    (hid : (dictGet? kvs "id").bind Json.asInt? = some did)
    (hbb : bboxNums? (dictGet? kvs "bbox") = some b)
    (hsc : (dictGet? kvs "score").bind Json.asNum? = some sc)
    (hdeg : ¬(b.xmax ≤ b.xmin ∨ b.ymax ≤ b.ymin))
    (hcl : clampBBox b width height = b) :
    processDet width height (.obj kvs) = .kept (.obj kvs) false := by
  simp only [processDet, hid, hbb, hsc]
  rw [if_neg hdeg, hcl]
  simp

/-- Forward evaluation of one load-loop iteration: a valid out-of-bounds
entry is kept with its bbox overwritten by the clamped values. -/
theorem processDet_clamped_of (width height : ℕ) (kvs : List (String × Json))
    (did : Int) (b c : BBoxQ) (sc : ℚ)
    (hid : (dictGet? kvs "id").bind Json.asInt? = some did)
    (hbb : bboxNums? (dictGet? kvs "bbox") = some b)
    (hsc : (dictGet? kvs "score").bind Json.asNum? = some sc)
    (hdeg : ¬(b.xmax ≤ b.xmin ∨ b.ymax ≤ b.ymin))
    (hcl : clampBBox b width height = c) (hne : c ≠ b) :
    processDet width height (.obj kvs) =
      .kept (.obj (dictSet kvs "bbox" (bboxJson c))) true := by
  simp only [processDet, hid, hbb, hsc]
  rw [if_neg hdeg, hcl]
  simp [hne]

/-- Forward evaluation of one load-loop iteration: a degenerate rectangle
(`xmin ≥ xmax` or `ymin ≥ ymax`) is dropped with its id recorded. -/
theorem processDet_dropped_of (width height : ℕ) (kvs : List (String × Json))
    (did : Int) (b : BBoxQ) (sc : ℚ)
    (hid : (dictGet? kvs "id").bind Json.asInt? = some did)
    (hbb : bboxNums? (dictGet? kvs "bbox") = some b)
    (hsc : (dictGet? kvs "score").bind Json.asNum? = some sc)
    (hdeg : b.xmax ≤ b.xmin ∨ b.ymax ≤ b.ymin) :
    processDet width height (.obj kvs) = .dropped did := by
  simp only [processDet, hid, hbb, hsc]
  rw [if_pos hdeg]

/-- Every detection kept by the full load loop satisfies the invariant. -/
theorem processDets_kept_inBounds (width height : ℕ) (hw : 1 ≤ width)
    (hh : 1 ≤ height) (raw : List Json) :
    ∀ det ∈ (processDets width height raw).kept,
      detInBounds width height det = true := by
  induction raw with
  | nil => intro det hdet; simp [processDets] at hdet
  | cons j rest ih =>
    intro det hdet
    unfold processDets at hdet
    cases hpd : processDet width height j with
    | skipped => rw [hpd] at hdet; exact ih det hdet
    | dropped i => rw [hpd] at hdet; exact ih det hdet
    | kept j2 c =>
      rw [hpd] at hdet
      simp only [List.mem_cons] at hdet
      rcases hdet with rfl | hdet
      · exact processDet_kept_inBounds width height hw hh hpd
      · exact ih det hdet

/-- The detections of a loaded session are the kept output of the load
loop. -/
theorem loadRecord_detections (width height : ℕ)
    (payload : List (String × Json)) :
    (loadRecord width height payload).1.detections =
      (processDets width height
        (match dictGet? payload "detections" with
         | some (.arr xs) => xs
         | _ => [])).kept := by
  unfold loadRecord
  split <;> rfl

/-! ## Claim C1: every detection surviving load is in bounds -/

/-- C1: for every image of size `(W, H)` with `W ≥ 1` and `H ≥ 1` and every
persisted record, every detection present in the session returned by `load`
satisfies `0 ≤ xmin < xmax ≤ W` and `0 ≤ ymin < ymax ≤ H`, with
`xmax − xmin ≥ 1` and `ymax − ymin ≥ 1`. -/
theorem load_invariant (width height : ℕ) (hw : 1 ≤ width) (hh : 1 ≤ height)
    (payload : List (String × Json)) :
    ∀ det ∈ (loadRecord width height payload).1.detections,
      detInBounds width height det = true := by
  rw [loadRecord_detections]
  exact processDets_kept_inBounds width height hw hh _

theorem load_invariant_witness :
    1 ≤ 10 ∧ detInBounds 10 10 detSmall = true := by
  have hcl : clampBBox ⟨2, 3, 7, 9⟩ 10 10 = ⟨2, 3, 7, 9⟩ :=
    clampBBox_fixed _ 10 10 (by norm_num) (by norm_num) (by norm_num [InBounds])
  have hpd : processDet 10 10 detSmall = .kept detSmall false :=
    processDet_kept_of 10 10
      [("id", .intVal 0),
       ("bbox", .arr [.intVal 2, .intVal 3, .intVal 7, .intVal 9]),
       ("score", .floatVal 1)]
      0 ⟨2, 3, 7, 9⟩ 1 rfl rfl rfl (by norm_num) hcl
  have hpds : processDets 10 10 [detSmall] = ⟨[detSmall], [detSmall], [], 0⟩ := by
    simp [processDets, hpd]
  have hmem : detSmall ∈ (loadRecord 10 10 recSmall).1.detections := by
    rw [loadRecord_detections]
    show detSmall ∈ (processDets 10 10 [detSmall]).kept
    rw [hpds]
    exact List.mem_singleton.mpr rfl
  exact ⟨by decide,
    load_invariant 10 10 (by decide) (by decide) recSmall detSmall hmem⟩

/-- The load report is determined by the load loop alone. -/
theorem loadRecord_report (width height : ℕ)
    (payload : List (String × Json)) :
    (loadRecord width height payload).2 =
      ⟨(processDets width height
          (match dictGet? payload "detections" with
           | some (.arr xs) => xs
           | _ => [])).dropped,
        (processDets width height
          (match dictGet? payload "detections" with
           | some (.arr xs) => xs
           | _ => [])).clamped⟩ := by
  unfold loadRecord
  split <;> rfl

/-! ## Claim C6: concrete load examples -/

/-- C6: loading a record containing the detection
`{id: 3, bbox: [10,10,10,20], score: 0.5}` drops that detection from the
session and records id `3` in the report's `dropped_invalid` sequence;
loading a record containing `{id: 4, bbox: [-5,-5,50,50], score: 0.9}`
against a `40×40` image keeps the detection with bbox clamped to
`[0,0,40,40]` and increments the report's `clamped_count`. -/
theorem load_examples :
    (loadRecord 100 100 recDegenerate).1.detections = [] ∧
      (loadRecord 100 100 recDegenerate).2.droppedInvalid = [3] ∧
      (loadRecord 40 40 recOutOfBounds).1.detections =
        [detOutOfBoundsClamped] ∧
      (loadRecord 40 40 recOutOfBounds).2.clampedCount = 1 := by
  have h1 : processDet 100 100 detDegenerate = .dropped 3 :=
    processDet_dropped_of 100 100
      [("id", .intVal 3),
       ("bbox", .arr [.intVal 10, .intVal 10, .intVal 10, .intVal 20]),
       ("score", .floatVal (1/2))]
      3 ⟨10, 10, 10, 20⟩ (1/2) rfl rfl rfl (by norm_num)
  have h2 : processDets 100 100 [detDegenerate] =
      ⟨[detDegenerate], [], [3], 0⟩ := by
    simp [processDets, h1]
  have hcl : clampBBox ⟨-5, -5, 50, 50⟩ 40 40 = ⟨0, 0, 40, 40⟩ := by
    norm_num [clampBBox, clampAxis, pyClamp, pyMax, pyMin]
  have h3 : processDet 40 40 detOutOfBounds =
      .kept detOutOfBoundsClamped true :=
    processDet_clamped_of 40 40
      [("id", .intVal 4),
       ("bbox", .arr [.intVal (-5), .intVal (-5), .intVal 50, .intVal 50]),
       ("score", .floatVal (9/10))]
      4 ⟨-5, -5, 50, 50⟩ ⟨0, 0, 40, 40⟩ (9/10) rfl rfl rfl (by norm_num) hcl
      (by decide)
  have h4 : processDets 40 40 [detOutOfBounds] =
      ⟨[detOutOfBoundsClamped], [detOutOfBoundsClamped], [], 1⟩ := by
    simp [processDets, h3]
  refine ⟨?_, ?_, ?_, ?_⟩
  · rw [loadRecord_detections]
    show (processDets 100 100 [detDegenerate]).kept = []
    rw [h2]
  · rw [loadRecord_report]
    show (processDets 100 100 [detDegenerate]).dropped = [3]
    rw [h2]
  · rw [loadRecord_detections]
    show (processDets 40 40 [detOutOfBounds]).kept = [detOutOfBoundsClamped]
    rw [h4]
  · rw [loadRecord_report]
    show (processDets 40 40 [detOutOfBounds]).clamped = 1
    rw [h4]

/-! ## Claim C2: round-trip of valid records -/

/-- The bounds invariant rules out degenerate rectangles. -/
theorem not_degenerate_of_inBounds (width height : ℕ) (b : BBoxQ)
    (hib : InBounds width height b) :
    ¬(b.xmax ≤ b.xmin ∨ b.ymax ≤ b.ymin) := by
  obtain ⟨_, _, _, _, h5, h6⟩ := hib
  rintro (hc | hc) <;> linarith

/-- A fully valid entry passes the load loop unchanged and unclamped. -/
theorem processDet_of_valid (width height : ℕ) (hw : 1 ≤ width)
    (hh : 1 ≤ height) (d : Json) (hv : detValid width height d = true) :
    processDet width height d = .kept d false := by
  cases d with
  | obj kvs =>
    simp only [detValid, Bool.and_eq_true] at hv
    obtain ⟨⟨hid, hsc⟩, hbb⟩ := hv
    obtain ⟨did, hid⟩ := Option.isSome_iff_exists.mp hid
    obtain ⟨sc, hsc⟩ := Option.isSome_iff_exists.mp hsc
    revert hbb
    cases hb : bboxNums? (dictGet? kvs "bbox") with
    | none => intro hbb; simp at hbb
    | some b =>
      intro hbb
      simp only [decide_eq_true_eq] at hbb
      exact processDet_kept_of width height kvs did b sc hid hb hsc
        (not_degenerate_of_inBounds width height b hbb)
        (clampBBox_fixed b width height hw hh hbb)
  | null => cases hv
  | bool b => cases hv
  | intVal n => cases hv
  | floatVal q => cases hv
  | str s => cases hv
  | arr xs => cases hv

/-- A list of fully valid entries passes the load loop unchanged: nothing
dropped, nothing clamped. -/
theorem processDets_of_valid (width height : ℕ) (hw : 1 ≤ width)
    (hh : 1 ≤ height) (dets : List Json)
    (hv : ∀ d ∈ dets, detValid width height d = true) :
    processDets width height dets = ⟨dets, dets, [], 0⟩ := by
  induction dets with
  | nil => rfl
  | cons d rest ih =>
    have hd := processDet_of_valid width height hw hh d (hv d (by simp))
    have hrest := ih (fun x hx => hv x (List.mem_cons_of_mem d hx))
    simp [processDets, hd, hrest]

/-- The save re-validation leaves a fully valid entry untouched. -/
theorem saveDet_of_valid (width height : ℕ) (hw : 1 ≤ width)
    (hh : 1 ≤ height) (d : Json) (hv : detValid width height d = true) :
    saveDet width height d = d := by
  cases d with
  | obj kvs =>
    simp only [detValid, Bool.and_eq_true] at hv
    obtain ⟨⟨hid, hsc⟩, hbb⟩ := hv
    revert hbb
    cases hb : bboxNums? (dictGet? kvs "bbox") with
    | none => intro hbb; simp [saveDet, hb]
    | some b =>
      intro hbb
      simp only [decide_eq_true_eq] at hbb
      simp [saveDet, hb, clampBBox_fixed b width height hw hh hbb]
  | null => cases hv
  | bool b => cases hv
  | intVal n => cases hv
  | floatVal q => cases hv
  | str s => cases hv
  | arr xs => cases hv

/-- Loading a valid record yields the record itself as payload, with no
repairs and `dirty = false`. -/
theorem loadRecord_of_valid (width height : ℕ) (hw : 1 ≤ width)
    (hh : 1 ≤ height) (payload : List (String × Json)) (dets : List Json)
    (hnd : (payload.map Prod.fst).Nodup)
    (hget : dictGet? payload "detections" = some (.arr dets))
    (hvalid : ∀ d ∈ dets, detValid width height d = true) :
    loadRecord width height payload =
      (⟨width, height, payload, dets, maxIdOf dets + 1, false⟩, ⟨[], 0⟩) := by
  have hpds := processDets_of_valid width height hw hh dets hvalid
  have hself := dictSet_eq_self payload "detections" (.arr dets) hnd hget
  simp [loadRecord, hget, hpds, hself]

/-- C2: for every record that already satisfies all invariants (a dict with
unique keys whose `detections` entry is a list of fully valid detections,
so that no entry is dropped and no bbox is changed by clamping), saving the
session produced by loading that record yields the same record: the
detections sequence is identical and every top-level key, including unknown
passthrough keys, is preserved verbatim. -/
theorem load_save_roundtrip (width height : ℕ) (hw : 1 ≤ width)
    (hh : 1 ≤ height) (payload : List (String × Json)) (dets : List Json)
    (hnd : (payload.map Prod.fst).Nodup)
    (hget : dictGet? payload "detections" = some (.arr dets))
    (hvalid : ∀ d ∈ dets, detValid width height d = true) :
    (saveRecord (loadRecord width height payload).1).payload = payload ∧
      (saveRecord (loadRecord width height payload).1).detections = dets ∧
      (loadRecord width height payload).2.droppedInvalid = [] ∧
      (loadRecord width height payload).2.clampedCount = 0 := by
  rw [loadRecord_of_valid width height hw hh payload dets hnd hget hvalid]
  have hmap : dets.map (saveDet width height) = dets := by
    calc dets.map (saveDet width height)
        = dets.map id := List.map_congr_left
          (fun d hd => saveDet_of_valid width height hw hh d (hvalid d hd))
      _ = dets := List.map_id dets
  refine ⟨?_, ?_, rfl, rfl⟩
  · show dictSet payload "detections"
      (.arr (dets.map (saveDet width height))) = payload
    rw [hmap]
    exact dictSet_eq_self payload "detections" (.arr dets) hnd hget
  · show dets.map (saveDet width height) = dets
    exact hmap

theorem load_save_roundtrip_witness :
    1 ≤ 10 ∧
      (saveRecord (loadRecord 10 10 recSmall).1).payload = recSmall ∧
      (saveRecord (loadRecord 10 10 recSmall).1).detections = [detSmall] ∧
      (loadRecord 10 10 recSmall).2.droppedInvalid = [] ∧
      (loadRecord 10 10 recSmall).2.clampedCount = 0 := by
  have hib : InBounds 10 10 (⟨2, 3, 7, 9⟩ : BBoxQ) := by norm_num [InBounds]
  have hv : ∀ d ∈ [detSmall], detValid 10 10 d = true := by
    intro d hd
    rw [List.mem_singleton.mp hd]
    show decide (InBounds 10 10 (⟨2, 3, 7, 9⟩ : BBoxQ)) = true
    exact decide_eq_true hib
  exact ⟨by decide,
    load_save_roundtrip 10 10 (by decide) (by decide) recSmall [detSmall]
      (by decide) rfl hv⟩

/-! ## Claim C5: add_box -/

/-- C5: for every session and every input rectangle, `add_box` stores the
rectangle clamped to image bounds and minimum size, assigns it id equal to
the session's prior `next_id`, increments `next_id` by exactly 1, appends a
detection with score 1.0 at the end of the sequence, sets `dirty`, and
returns that detection; in particular on a `100×100` image the input
`[-10,-10,5,5]` is stored as `[0,0,5,5]`. -/
theorem add_box_spec (s : Session) (b : BBoxQ)
    (hw : 1 ≤ s.width) (hh : 1 ≤ s.height) :
    (addBox s b).2 = Json.obj
      [("id", .intVal s.nextId),
       ("bbox", bboxJson (clampBBox b s.width s.height)),
       ("score", .floatVal 1)] ∧
      InBounds s.width s.height (clampBBox b s.width s.height) ∧
      (addBox s b).1.nextId = s.nextId + 1 ∧
      (addBox s b).1.detections = s.detections ++ [(addBox s b).2] ∧
      (addBox s b).1.dirty = true ∧
      clampBBox ⟨-10, -10, 5, 5⟩ 100 100 = ⟨0, 0, 5, 5⟩ :=
  ⟨rfl, clampBBox_sound b s.width s.height hw hh, rfl, rfl, rfl,
    by norm_num [clampBBox, clampAxis, pyClamp, pyMax, pyMin]⟩

theorem add_box_spec_witness :
    1 ≤ 100 ∧
      ((addBox ⟨100, 100, [], [], 5, false⟩ ⟨-10, -10, 5, 5⟩).2 = Json.obj
        [("id", .intVal 5),
         ("bbox", bboxJson (clampBBox ⟨-10, -10, 5, 5⟩ 100 100)),
         ("score", .floatVal 1)] ∧
      InBounds 100 100 (clampBBox ⟨-10, -10, 5, 5⟩ 100 100) ∧
      (addBox ⟨100, 100, [], [], 5, false⟩ ⟨-10, -10, 5, 5⟩).1.nextId = 5 + 1 ∧
      (addBox ⟨100, 100, [], [], 5, false⟩ ⟨-10, -10, 5, 5⟩).1.detections =
        [] ++ [(addBox ⟨100, 100, [], [], 5, false⟩ ⟨-10, -10, 5, 5⟩).2] ∧
      (addBox ⟨100, 100, [], [], 5, false⟩ ⟨-10, -10, 5, 5⟩).1.dirty = true ∧
      clampBBox ⟨-10, -10, 5, 5⟩ 100 100 = ⟨0, 0, 5, 5⟩) :=
  ⟨by decide,
    add_box_spec ⟨100, 100, [], [], 5, false⟩ ⟨-10, -10, 5, 5⟩
      (by decide) (by decide)⟩

/-! ## Claim C7: delete_box -/

/-- `list.remove` finds nothing exactly when no element compares equal. -/
theorem removeFirst_eq_none (x : Json) (l : List Json)
    (h : ∀ y ∈ l, pyEq y x = false) : removeFirst x l = none := by
  induction l with
  | nil => rfl
  | cons y ys ih =>
    simp only [removeFirst, h y (by simp)]
    rw [ih (fun z hz => h z (List.mem_cons_of_mem y hz))]
    rfl

/-- `list.remove` removes exactly the first matching element. -/
theorem removeFirst_eq_some (x : Json) (pre post : List Json) (y : Json)
    (hy : pyEq y x = true) (hpre : ∀ z ∈ pre, pyEq z x = false) :
    removeFirst x (pre ++ y :: post) = some (pre ++ post) := by
  induction pre with
  | nil => simp [removeFirst, hy]
  | cons z zs ih =>
    have hz := hpre z (by simp)
    have ih2 := ih (fun w hw => hpre w (List.mem_cons_of_mem z hw))
    simp [removeFirst, hz, ih2]

/-- C7: `delete_box` removes the first occurrence of the given detection
(by Python `==` equality) and marks the session dirty; when the detection
is not present — for example on a second deletion of the same detection —
it is a no-op that does not raise and leaves the session, including its
`dirty` flag, unchanged. -/
theorem delete_box_spec (s : Session) (det : Json) :
    ((∀ y ∈ s.detections, pyEq y det = false) → deleteBox s det = s) ∧
      (∀ pre x post, s.detections = pre ++ x :: post → pyEq x det = true →
        (∀ y ∈ pre, pyEq y det = false) →
        deleteBox s det = { s with detections := pre ++ post, dirty := true }) := by
  constructor
  · intro habs
    unfold deleteBox
    rw [removeFirst_eq_none det s.detections habs]
  · intro pre x post hdets hx hpre
    unfold deleteBox
    rw [hdets, removeFirst_eq_some det pre post x hx hpre]

theorem delete_box_spec_witness :
    deleteBox ⟨10, 10, recSmall, [detSmall], 1, false⟩ detSmall =
        ⟨10, 10, recSmall, [], 1, true⟩ ∧
      deleteBox ⟨10, 10, recSmall, [], 1, true⟩ detSmall =
        ⟨10, 10, recSmall, [], 1, true⟩ :=
  ⟨(delete_box_spec ⟨10, 10, recSmall, [detSmall], 1, false⟩ detSmall).2
      [] detSmall [] rfl (by decide) (fun y hy => absurd hy (List.not_mem_nil y)),
    (delete_box_spec ⟨10, 10, recSmall, [], 1, true⟩ detSmall).1
      (fun y hy => absurd hy (List.not_mem_nil y))⟩

/-! ## Claim C4: save re-validates and re-clamps -/

/-- Counterexample to C4 as stated: a session whose detection bbox was
mutated out of band into a non-list value is written through `save`
unchanged, so the persisted record contains a detection whose bbox is not
an in-bounds box of minimum size 1 — `save` skips (rather than repairs or
drops) entries whose bbox is not a list of four numbers. -/
theorem save_reclamps_counterexample :
    (saveRecord sessionBadBBox).detections = [detBadBBox] ∧
      dictGet? (saveRecord sessionBadBBox).payload "detections" =
        some (.arr [detBadBBox]) ∧
      detInBounds 100 100 detBadBBox = false :=
  ⟨rfl, rfl, rfl⟩

/-- C4 (amended): for every session with positive stored width and height,
including one whose detection bboxes were mutated out of band after
loading, `save` re-validates and re-clamps every detection bbox that is a
list of four numbers against the session's stored width and height before
writing, so every well-formed detection bbox in the persisted record is in
bounds with minimum size 1 (a detection whose bbox is not a four-number
list is written unchanged); after save returns, the session's dirty flag is
false. -/
theorem save_reclamps_wellformed (s : Session)
    (hw : 1 ≤ s.width) (hh : 1 ≤ s.height) :
    (∀ det ∈ (saveRecord s).detections, ∀ kvs b, det = Json.obj kvs →
        bboxNums? (dictGet? kvs "bbox") = some b →
        InBounds s.width s.height b) ∧
      dictGet? (saveRecord s).payload "detections" =
        some (.arr (saveRecord s).detections) ∧
      (saveRecord s).dirty = false := by
  refine ⟨?_, ?_, rfl⟩
  · intro det hdet kvs b hobj hbb
    have hdet2 : det ∈ s.detections.map (saveDet s.width s.height) := hdet
    obtain ⟨d, hd, hsave⟩ := List.mem_map.mp hdet2
    subst hsave
    cases d with
    | obj kvs0 =>
      cases hb : bboxNums? (dictGet? kvs0 "bbox") with
      | none =>
        have hs : saveDet s.width s.height (Json.obj kvs0) = Json.obj kvs0 := by
          simp [saveDet, hb]
        rw [hs] at hobj
        injection hobj with hkvs
        subst hkvs
        rw [hb] at hbb
        cases hbb
      | some b0 =>
        by_cases hcl : clampBBox b0 s.width s.height = b0
        · have hs : saveDet s.width s.height (Json.obj kvs0) = Json.obj kvs0 := by
            simp [saveDet, hb, hcl]
          rw [hs] at hobj
          injection hobj with hkvs
          subst hkvs
          rw [hb] at hbb
          injection hbb with hbb0
          subst hbb0
          exact hcl ▸ clampBBox_sound b0 s.width s.height hw hh
        · have hs : saveDet s.width s.height (Json.obj kvs0) =
              Json.obj (dictSet kvs0 "bbox"
                (bboxJson (clampBBox b0 s.width s.height))) := by
            simp [saveDet, hb, hcl]
          rw [hs] at hobj
          injection hobj with hkvs
          subst hkvs
          rw [dictGet?_dictSet_self, bboxNums?_bboxJson] at hbb
          injection hbb with hbb0
          subst hbb0
          exact clampBBox_sound b0 s.width s.height hw hh
    | null => cases hobj
    | bool bb => cases hobj
    | intVal n => cases hobj
    | floatVal q => cases hobj
    | str ss => cases hobj
    | arr xs => cases hobj
  · exact dictGet?_dictSet_self s.payload "detections" _

theorem save_reclamps_wellformed_witness :
    1 ≤ 10 ∧ (saveRecord sessionSmall).dirty = false ∧
      InBounds 10 10 ⟨2, 3, 7, 9⟩ := by
  have hib : InBounds 10 10 (⟨2, 3, 7, 9⟩ : BBoxQ) := by norm_num [InBounds]
  have hdv : detValid 10 10 detSmall = true := by
    show decide (InBounds 10 10 (⟨2, 3, 7, 9⟩ : BBoxQ)) = true
    exact decide_eq_true hib
  have hsd : saveDet 10 10 detSmall = detSmall :=
    saveDet_of_valid 10 10 (by decide) (by decide) detSmall hdv
  have hmem : detSmall ∈ (saveRecord sessionSmall).detections := by
    show detSmall ∈ [detSmall].map (saveDet 10 10)
    rw [List.map_singleton, hsd]
    exact List.mem_singleton.mpr rfl
  exact ⟨by decide,
    (save_reclamps_wellformed sessionSmall (by decide) (by decide)).2.2,
    (save_reclamps_wellformed sessionSmall (by decide) (by decide)).1
      detSmall hmem
      [("id", .intVal 0),
       ("bbox", .arr [.intVal 2, .intVal 3, .intVal 7, .intVal 9]),
       ("score", .floatVal 1)]
      ⟨2, 3, 7, 9⟩ rfl rfl⟩

/-! ## Claim C9: selection synchronization -/

/-- C9: when a selection change of a detection id present in both views
originates in either the list view or the canvas view, one synchronization
round ends with both views agreeing on that selected id, with the guard
released and without a second execution of a guarded handler body
(`handlerRuns` grows by exactly one); selecting a detection whose id is not
in the current box set through the canvas's `select_detection` is not an
error and resolves both views to no selection. -/
theorem selection_sync (boxes listIds : List Int) (i j : Int)
    (st : SyncState) (hguard : st.guard = false)
    (hib : i ∈ boxes) (hil : i ∈ listIds) (hjb : j ∉ boxes) :
    ((dispatch boxes listIds 2 (.listCurrentChanged (some i))
        { st with listSel := some i }).listSel = some i ∧
      (dispatch boxes listIds 2 (.listCurrentChanged (some i))
        { st with listSel := some i }).canvasSel = some i ∧
      (dispatch boxes listIds 2 (.listCurrentChanged (some i))
        { st with listSel := some i }).guard = false ∧
      (dispatch boxes listIds 2 (.listCurrentChanged (some i))
        { st with listSel := some i }).handlerRuns = st.handlerRuns + 1) ∧
      ((dispatch boxes listIds 2 (.canvasSelectionChanged (some i))
        { st with canvasSel := some i }).listSel = some i ∧
      (dispatch boxes listIds 2 (.canvasSelectionChanged (some i))
        { st with canvasSel := some i }).canvasSel = some i ∧
      (dispatch boxes listIds 2 (.canvasSelectionChanged (some i))
        { st with canvasSel := some i }).guard = false ∧
      (dispatch boxes listIds 2 (.canvasSelectionChanged (some i))
        { st with canvasSel := some i }).handlerRuns = st.handlerRuns + 1) ∧
      ((selectDetection boxes listIds 2 (some j) st).listSel = none ∧
      (selectDetection boxes listIds 2 (some j) st).canvasSel = none ∧
      (selectDetection boxes listIds 2 (some j) st).guard = false) := by
  refine ⟨⟨?_, ?_, ?_, ?_⟩, ⟨?_, ?_, ?_, ?_⟩, ⟨?_, ?_, ?_⟩⟩ <;>
    simp [dispatch, selectDetection, hguard, hib, hil, hjb]

theorem selection_sync_witness :
    ((dispatch [7] [7] 2 (.listCurrentChanged (some 7))
        ⟨some 7, none, false, 0⟩).listSel = some 7 ∧
      (dispatch [7] [7] 2 (.listCurrentChanged (some 7))
        ⟨some 7, none, false, 0⟩).canvasSel = some 7 ∧
      (dispatch [7] [7] 2 (.listCurrentChanged (some 7))
        ⟨some 7, none, false, 0⟩).guard = false ∧
      (dispatch [7] [7] 2 (.listCurrentChanged (some 7))
        ⟨some 7, none, false, 0⟩).handlerRuns = 0 + 1) ∧
      ((dispatch [7] [7] 2 (.canvasSelectionChanged (some 7))
        ⟨none, some 7, false, 0⟩).listSel = some 7 ∧
      (dispatch [7] [7] 2 (.canvasSelectionChanged (some 7))
        ⟨none, some 7, false, 0⟩).canvasSel = some 7 ∧
      (dispatch [7] [7] 2 (.canvasSelectionChanged (some 7))
        ⟨none, some 7, false, 0⟩).guard = false ∧
      (dispatch [7] [7] 2 (.canvasSelectionChanged (some 7))
        ⟨none, some 7, false, 0⟩).handlerRuns = 0 + 1) ∧
      ((selectDetection [7] [7] 2 (some 5) ⟨none, none, false, 0⟩).listSel = none ∧
      (selectDetection [7] [7] 2 (some 5) ⟨none, none, false, 0⟩).canvasSel = none ∧
      (selectDetection [7] [7] 2 (some 5) ⟨none, none, false, 0⟩).guard = false) :=
  selection_sync [7] [7] 7 5 ⟨none, none, false, 0⟩ rfl
    (by decide) (by decide) (by decide)

end PictureAnnotator
